import Mathlib

/-!
# The VM folder resource of the VMware provider

A shallow embedding of `resource_vm_folder.go` and the properties of its four
lifecycle handlers (create, read, update, delete) and of its path handling.

Modelling conventions.

* Go strings are Lean strings. The only string operations of the source are
  `strings.Trim`, `strings.TrimPrefix` and `strings.Join`, used with the ASCII
  cutset and separator `/`, on which working with characters and working with
  bytes agree.
* A Go `error` is the text of its message; `fmt.Errorf("...: %s", err)` is the
  concatenation of the format's text with that message.
* The remote inventory (the govmomi finder, folder and task objects) is external
  to the repository. It is a parameter: a `Client σ` gives, for every remote
  call of the source, an arbitrary answer and an arbitrary next remote state.
* Every remote call a handler issues is recorded, in order, in a call log, so
  that "issues no destroy request" is a statement about the log.
* A handler ends in one of three ways: it returns `nil`, it returns an error, or
  a runtime panic is raised by a failed type assertion `obj.(*object.Folder)` or
  by dereferencing a nil `o.Parent`.
-/

/-! ## The Go `strings` functions the source uses -/

namespace strings

/-- Go `strings.Join(elems, sep)`: the elements, with `sep` between neighbours. -/
def Join : List String → String → String
  | [], _ => ""
  | [a], _ => a
  | a :: b :: rest, sep => a ++ sep ++ Join (b :: rest) sep

/-- Go `strings.TrimRight(s, cutset)`: `s` without its trailing characters
that are in `cutset`. -/
def TrimRight (s cutset : String) : String :=
  ⟨(s.data.reverse.dropWhile (fun c => cutset.data.contains c)).reverse⟩

/-- Go `strings.TrimLeft(s, cutset)`: `s` without its leading characters that
are in `cutset`. -/
def TrimLeft (s cutset : String) : String :=
  ⟨s.data.dropWhile (fun c => cutset.data.contains c)⟩

/-- Go `strings.Trim(s, cutset)`, which is `TrimLeft(TrimRight(s, cutset), cutset)`. -/
def Trim (s cutset : String) : String :=
  TrimLeft (TrimRight s cutset) cutset

/-- Go `strings.HasPrefix(s, p)`. -/
def HasPrefix (s p : String) : Bool :=
  p.data.isPrefixOf s.data

/-- Go `strings.TrimPrefix(s, p)`: `s` without the leading `p` when `s` starts
with `p`, and `s` itself otherwise. -/
def TrimPrefix (s p : String) : String :=
  if HasPrefix s p then ⟨s.data.drop p.data.length⟩ else s

end strings

/-! ## Path handling (lines 32-36, 57, 99-103, 140) -/

/-- The `StateFunc` of the `parent` field of the schema (lines 32-36). -/
def parentStateFunc (value : String) : String :=
  let path := strings.Trim value "/"
  strings.Join ["/", path] ""

/-- The path `resourceVmFolderCreate` (line 57) and `resourceVmFolderUpdate`
(line 140) hand to `finder.Folder`. -/
def toFullyQualified (datacenter parent_name : String) : String :=
  strings.Join [datacenter, "vm", parent_name] "/"

/-- The value `resourceVmFolderRead` stores in `parent`, computed from the
parent folder's inventory path and the datacenter (lines 100-103). -/
def toDeclarative (inventoryPath datacenter : String) : String :=
  let pfx := strings.Join ["/", datacenter, "/vm"] ""
  let path := strings.TrimPrefix inventoryPath pfx
  let path := strings.TrimPrefix path "/"
  let path := strings.Join ["/", path] ""
  path

/-- A normalized relative path: it begins with exactly one `/` and, unless it
is the root `/`, it does not end in `/`. -/
def isNormalized (p : String) : Bool :=
  p.data.head? == some '/' && p.data.tail.head? != some '/' &&
    (p == "/" || p.data.getLast? != some '/')

/-! ## The remote inventory -/

namespace types

/-- Go `types.ManagedObjectReference`. -/
structure ManagedObjectReference where
  Typ : String
  Value : String
deriving DecidableEq, Repr

end types

namespace object

/-- Go `object.Folder`: its reference and its inventory path. -/
structure Folder where
  Reference : types.ManagedObjectReference
  InventoryPath : String
deriving DecidableEq, Repr

/-- Go `object.Reference`, the interface value `finder.ObjectReference`
returns: a folder, or an object of another dynamic type. -/
inductive Reference where
  | Folder (f : object.Folder)
  | Other (ref : types.ManagedObjectReference)
deriving DecidableEq, Repr

/-- Go `object.Task`, the handle of a long-running remote operation. -/
structure Task where
  Reference : types.ManagedObjectReference
deriving DecidableEq, Repr

end object

namespace mo

/-- Go `mo.ManagedEntity`, with the two properties the source fetches. -/
structure ManagedEntity where
  Name : String
  Parent : Option types.ManagedObjectReference
deriving DecidableEq, Repr

end mo

/-- The answers of the remote inventory: one function for each remote call of
the source, from the remote state and the call's arguments to the call's result
and the next remote state. `Children` gives both results of the Go call, the
list and the error. -/
structure Client (σ : Type) where
  ObjectReference : σ → types.ManagedObjectReference → Except String object.Reference × σ
  Folder : σ → String → Except String object.Folder × σ
  CreateFolder : σ → object.Folder → String → Except String object.Folder × σ
  Properties : σ → object.Folder → types.ManagedObjectReference → List String →
    Except String mo.ManagedEntity × σ
  Children : σ → object.Folder → (List object.Reference × Option String) × σ
  Rename : σ → object.Folder → String → Except String object.Task × σ
  MoveInto : σ → object.Folder → List types.ManagedObjectReference →
    Except String object.Task × σ
  Destroy : σ → object.Folder → Except String object.Task × σ
  WaitForResult : σ → object.Task → Except String Unit × σ

/-- A remote call, as recorded in the call log. -/
inductive Call where
  | ObjectReference (ref : types.ManagedObjectReference)
  | FinderFolder (path : String)
  | CreateFolder (parent : types.ManagedObjectReference) (name : String)
  | Properties (ref : types.ManagedObjectReference) (props : List String)
  | Children (ref : types.ManagedObjectReference)
  | Rename (ref : types.ManagedObjectReference) (name : String)
  | MoveInto (parent : types.ManagedObjectReference) (list : List types.ManagedObjectReference)
  | Destroy (ref : types.ManagedObjectReference)
  | WaitForResult (task : types.ManagedObjectReference)
deriving DecidableEq, Repr

/-- The calls that change the remote inventory. -/
def Call.isMutating : Call → Bool
  | .CreateFolder _ _ => true
  | .Rename _ _ => true
  | .MoveInto _ _ => true
  | .Destroy _ => true
  | _ => false

/-- The remote state together with the log of the calls issued so far. -/
structure Session (σ : Type) where
  remote : σ
  calls : List Call

/-- The session a handler starts in: nothing issued yet. -/
def Session.start {σ : Type} (s : σ) : Session σ := ⟨s, []⟩

/-- Go `finder.ObjectReference(ctx, ref)`. -/
def finder.ObjectReference {σ : Type} (client : Client σ) (w : Session σ)
    (ref : types.ManagedObjectReference) : Except String object.Reference × Session σ :=
  let r := client.ObjectReference w.remote ref
  (r.1, ⟨r.2, w.calls ++ [Call.ObjectReference ref]⟩)

/-- Go `finder.Folder(ctx, path)`. -/
def finder.Folder {σ : Type} (client : Client σ) (w : Session σ) (path : String) :
    Except String object.Folder × Session σ :=
  let r := client.Folder w.remote path
  (r.1, ⟨r.2, w.calls ++ [Call.FinderFolder path]⟩)

/-- Go `parent_folder.CreateFolder(ctx, name)`. -/
def object.Folder.CreateFolder {σ : Type} (f : object.Folder) (client : Client σ)
    (w : Session σ) (name : String) : Except String object.Folder × Session σ :=
  let r := client.CreateFolder w.remote f name
  (r.1, ⟨r.2, w.calls ++ [Call.CreateFolder f.Reference name]⟩)

/-- Go `folder.Properties(ctx, ref, props, &o)`. -/
def object.Folder.Properties {σ : Type} (f : object.Folder) (client : Client σ)
    (w : Session σ) (ref : types.ManagedObjectReference) (props : List String) :
    Except String mo.ManagedEntity × Session σ :=
  let r := client.Properties w.remote f ref props
  (r.1, ⟨r.2, w.calls ++ [Call.Properties ref props]⟩)

/-- Go `folder.Children(ctx)`, with both of its results. -/
def object.Folder.Children {σ : Type} (f : object.Folder) (client : Client σ)
    (w : Session σ) : (List object.Reference × Option String) × Session σ :=
  let r := client.Children w.remote f
  (r.1, ⟨r.2, w.calls ++ [Call.Children f.Reference]⟩)

/-- Go `folder.Rename(ctx, name)`. -/
def object.Folder.Rename {σ : Type} (f : object.Folder) (client : Client σ)
    (w : Session σ) (name : String) : Except String object.Task × Session σ :=
  let r := client.Rename w.remote f name
  (r.1, ⟨r.2, w.calls ++ [Call.Rename f.Reference name]⟩)

/-- Go `parent_folder.MoveInto(ctx, list)`. -/
def object.Folder.MoveInto {σ : Type} (f : object.Folder) (client : Client σ)
    (w : Session σ) (list : List types.ManagedObjectReference) :
    Except String object.Task × Session σ :=
  let r := client.MoveInto w.remote f list
  (r.1, ⟨r.2, w.calls ++ [Call.MoveInto f.Reference list]⟩)

/-- Go `folder.Destroy(ctx)`. -/
def object.Folder.Destroy {σ : Type} (f : object.Folder) (client : Client σ)
    (w : Session σ) : Except String object.Task × Session σ :=
  let r := client.Destroy w.remote f
  (r.1, ⟨r.2, w.calls ++ [Call.Destroy f.Reference]⟩)

/-- Go `task.WaitForResult(ctx, nil)`. -/
def object.Task.WaitForResult {σ : Type} (t : object.Task) (client : Client σ)
    (w : Session σ) : Except String Unit × Session σ :=
  let r := client.WaitForResult w.remote t
  (r.1, ⟨r.2, w.calls ++ [Call.WaitForResult t.Reference]⟩)

/-! ## The resource data of the orchestration runtime -/

namespace schema

/-- Go `schema.ResourceData`, as far as the source uses it: the identity token,
the values `d.Get` returns for the three fields, the keys for which
`d.HasChange` is true, the staged-completion flag of `d.Partial` and the keys
marked by `d.SetPartial`. -/
structure ResourceData where
  Id : String
  datacenter : String
  parent : String
  name : String
  changed : List String
  partialOn : Bool
  partialMap : List String
deriving DecidableEq, Repr

/-- Go `d.SetId(v)`. -/
def ResourceData.SetId (d : ResourceData) (v : String) : ResourceData :=
  { d with Id := v }

/-- Go `d.Get(key).(string)`. -/
def ResourceData.Get (d : ResourceData) (key : String) : String :=
  if key = "datacenter" then d.datacenter
  else if key = "parent" then d.parent
  else if key = "name" then d.name
  else ""

/-- Go `d.Set(key, value)`. -/
def ResourceData.Set (d : ResourceData) (key value : String) : ResourceData :=
  if key = "datacenter" then { d with datacenter := value }
  else if key = "parent" then { d with parent := value }
  else if key = "name" then { d with name := value }
  else d

/-- Go `d.HasChange(key)`. -/
def ResourceData.HasChange (d : ResourceData) (key : String) : Bool :=
  d.changed.contains key

/-- Go `d.Partial(b)`. -/
def ResourceData.Partial (d : ResourceData) (b : Bool) : ResourceData :=
  { d with partialOn := b }

/-- Go `d.SetPartial(key)`. -/
def ResourceData.SetPartial (d : ResourceData) (key : String) : ResourceData :=
  { d with partialMap := d.partialMap ++ [key] }

end schema

/-! ## The handlers -/

/-- How a handler ends: `return nil`, `return fmt.Errorf(...)`, or a runtime
panic (a failed type assertion, a nil dereference). -/
inductive GoResult where
  | nil
  | error (msg : String)
  | panicked
deriving DecidableEq, Repr

/-- What a handler leaves behind: how it ended, the resource data, and the
session (remote state and call log). -/
structure Outcome (σ : Type) where
  err : GoResult
  d : schema.ResourceData
  w : Session σ

/-- Go `resourceVmFolderCreate` (lines 48-71). -/
def resourceVmFolderCreate {σ : Type} (client : Client σ) (d : schema.ResourceData)
    (s : σ) : Outcome σ :=
  let w := Session.start s
  let datacenter := d.Get "datacenter"
  let parent_name := d.Get "parent"
  let name := d.Get "name"
  let path := toFullyQualified datacenter parent_name
  match finder.Folder client w path with
  | (.error err, w) => ⟨.error ("Cannot find parent folder: " ++ err), d, w⟩
  | (.ok parent_folder, w) =>
    match parent_folder.CreateFolder client w name with
    | (.error err, w) => ⟨.error ("Cannot create folder: " ++ err), d, w⟩
    | (.ok folder, w) => ⟨.nil, d.SetId folder.Reference.Value, w⟩

/-- Go `resourceVmFolderRead` (lines 73-107). -/
def resourceVmFolderRead {σ : Type} (client : Client σ) (d : schema.ResourceData)
    (s : σ) : Outcome σ :=
  let w := Session.start s
  let mor : types.ManagedObjectReference := ⟨"Folder", d.Id⟩
  match finder.ObjectReference client w mor with
  | (.error _, w) => ⟨.nil, d.SetId "", w⟩
  | (.ok (.Other _), w) => ⟨.panicked, d, w⟩
  | (.ok (.Folder folder), w) =>
    match folder.Properties client w folder.Reference ["name", "parent"] with
    | (.error err, w) => ⟨.error ("Cannot read folder: " ++ err), d, w⟩
    | (.ok o, w) =>
      let d := d.Set "name" o.Name
      match o.Parent with
      | none => ⟨.panicked, d, w⟩
      | some parent =>
        match finder.ObjectReference client w parent with
        | (.error err, w) => ⟨.error ("Cannot read folder: " ++ err), d, w⟩
        | (.ok (.Other _), w) => ⟨.panicked, d, w⟩
        | (.ok (.Folder parent_folder), w) =>
          let datacenter := d.Get "datacenter"
          let path := toDeclarative parent_folder.InventoryPath datacenter
          ⟨.nil, d.Set "parent" path, w⟩

/-- The second step of `resourceVmFolderUpdate` (lines 136-158): the move
under the new parent when `parent` changed, then `d.Partial(false)`. -/
def resourceVmFolderUpdate.parentStep {σ : Type} (client : Client σ)
    (folder : object.Folder) (d : schema.ResourceData) (w : Session σ) : Outcome σ :=
  if d.HasChange "parent" then
    let datacenter := d.Get "datacenter"
    let parent_name := d.Get "parent"
    let path := toFullyQualified datacenter parent_name
    match finder.Folder client w path with
    | (.error err, w) => ⟨.error ("Cannot find parent folder: " ++ err), d, w⟩
    | (.ok parent_folder, w) =>
      match parent_folder.MoveInto client w [folder.Reference] with
      | (.error err, w) => ⟨.error ("Cannot move folder: " ++ err), d, w⟩
      | (.ok task, w) =>
        match task.WaitForResult client w with
        | (.error err, w) => ⟨.error ("Cannot move folder: " ++ err), d, w⟩
        | (.ok _, w) => ⟨.nil, (d.SetPartial "parent").Partial false, w⟩
  else
    ⟨.nil, d.Partial false, w⟩

/-- Go `resourceVmFolderUpdate` (lines 109-159): the identity resolution, the
rename when `name` changed (lines 123-134), then the parent step. -/
def resourceVmFolderUpdate {σ : Type} (client : Client σ) (d : schema.ResourceData)
    (s : σ) : Outcome σ :=
  let w := Session.start s
  let mor : types.ManagedObjectReference := ⟨"Folder", d.Id⟩
  match finder.ObjectReference client w mor with
  | (.error _, w) => ⟨.nil, d.SetId "", w⟩
  | (.ok (.Other _), w) => ⟨.panicked, d, w⟩
  | (.ok (.Folder folder), w) =>
    let d := d.Partial true
    if d.HasChange "name" then
      let name := d.Get "name"
      match folder.Rename client w name with
      | (.error err, w) => ⟨.error ("Cannot rename folder: " ++ err), d, w⟩
      | (.ok task, w) =>
        match task.WaitForResult client w with
        | (.error err, w) => ⟨.error ("Cannot rename folder: " ++ err), d, w⟩
        | (.ok _, w) => resourceVmFolderUpdate.parentStep client folder (d.SetPartial "name") w
    else
      resourceVmFolderUpdate.parentStep client folder d w

/-- Go `resourceVmFolderDelete` (lines 161-189). The error of
`folder.Children` is discarded (`children, _ :=`, line 174). -/
def resourceVmFolderDelete {σ : Type} (client : Client σ) (d : schema.ResourceData)
    (s : σ) : Outcome σ :=
  let w := Session.start s
  let mor : types.ManagedObjectReference := ⟨"Folder", d.Id⟩
  match finder.ObjectReference client w mor with
  | (.error _, w) => ⟨.nil, d.SetId "", w⟩
  | (.ok (.Other _), w) => ⟨.panicked, d, w⟩
  | (.ok (.Folder folder), w) =>
    match folder.Children client w with
    | ((children, _), w) =>
      if children.length > 0 then
        ⟨.error "Folder is not empty", d, w⟩
      else
        match folder.Destroy client w with
        | (.error err, w) => ⟨.error ("Cannot delete folder: " ++ err), d, w⟩
        | (.ok task, w) =>
          match task.WaitForResult client w with
          | (.error err, w) => ⟨.error ("Cannot delete folder: " ++ err), d, w⟩
          | (.ok _, w) => ⟨.nil, d.SetId "", w⟩

/-! ## Concrete inventories and resource data, for evaluating the handlers -/

/-- An inventory in which every call succeeds. The folder `group-v2` is
`/DC1/vm/eng/build`, its parent `group-v1` is `/DC1/vm/eng`, and it has no
children. The remote state is the list of the references destroyed so far. -/
def okClient : Client (List String) where
  ObjectReference := fun s ref =>
    (.ok (.Folder ⟨ref, if ref.Value = "group-v1" then "/DC1/vm/eng" else "/DC1/vm/eng/build"⟩), s)
  Folder := fun s path => (.ok ⟨⟨"Folder", "group-v1"⟩, "/" ++ path⟩, s)
  CreateFolder := fun s p name =>
    (.ok ⟨⟨"Folder", "group-v2"⟩, p.InventoryPath ++ "/" ++ name⟩, s)
  Properties := fun s _ _ _ => (.ok ⟨"build", some ⟨"Folder", "group-v1"⟩⟩, s)
  Children := fun s _ => (([], none), s)
  Rename := fun s _ _ => (.ok ⟨⟨"Task", "task-1"⟩⟩, s)
  MoveInto := fun s _ _ => (.ok ⟨⟨"Task", "task-2"⟩⟩, s)
  Destroy := fun s f => (.ok ⟨⟨"Task", "task-3"⟩⟩, f.Reference.Value :: s)
  WaitForResult := fun s _ => (.ok (), s)

/-- An inventory in which the identity no longer resolves. -/
def goneClient : Client (List String) :=
  { okClient with ObjectReference := fun s _ => (.error "not found", s) }

/-- An inventory in which the folder has one child. -/
def nonEmptyClient : Client (List String) :=
  { okClient with
    Children := fun s _ => (([.Other ⟨"VirtualMachine", "vm-7"⟩], none), s) }

/-- An inventory in which listing the children fails: the Go call returns a
nil list and an error. -/
def childrenFailClient : Client (List String) :=
  { okClient with Children := fun s _ => (([], some "connection reset"), s) }

/-- An inventory that rejects the rename request. -/
def renameRejectedClient : Client (List String) :=
  { okClient with Rename := fun s _ _ => (.error "permission denied", s) }

/-- An inventory that accepts the rename request and whose rename task fails. -/
def renameTaskFailsClient : Client (List String) :=
  { okClient with
    WaitForResult := fun s t =>
      if t.Reference.Value = "task-1" then (.error "duplicate name", s) else (.ok (), s) }

/-- An inventory with no folder at the looked-up path. -/
def noParentClient : Client (List String) :=
  { okClient with Folder := fun s _ => (.error "folder not found", s) }

/-- An inventory that rejects the create-child-folder request. -/
def createRejectedClient : Client (List String) :=
  { okClient with CreateFolder := fun s _ _ => (.error "duplicate name", s) }

/-- The declared folder `build` under `/eng` in `DC1`, not yet created. -/
def newData : schema.ResourceData :=
  { Id := "", datacenter := "DC1", parent := "/eng", name := "build",
    changed := [], partialOn := false, partialMap := [] }

/-- The folder of `newData` once created as `group-v2`, with nothing changed. -/
def sampleData : schema.ResourceData :=
  { newData with Id := "group-v2" }

/-- The folder `group-v2` with both `name` and `parent` changed. -/
def changedData : schema.ResourceData :=
  { sampleData with parent := "/eng/ci", name := "release", changed := ["name", "parent"] }

/-- The folder `group-v2` with only `parent` changed. -/
def movedData : schema.ResourceData :=
  { sampleData with parent := "/eng/ci", changed := ["parent"] }

/-! ## Lemmas on the string functions -/

theorem strings.Join_pair (a b : String) : strings.Join [a, b] "" = a ++ b := by
  simp [strings.Join]

theorem strings.Join_triple (a b c sep : String) :
    strings.Join [a, b, c] sep = a ++ sep ++ b ++ sep ++ c := by
  simp [strings.Join, String.append_assoc]

theorem strings.TrimPrefix_append (p rest : String) :
    strings.TrimPrefix (p ++ rest) p = rest := by
  have h : strings.HasPrefix (p ++ rest) p = true := by
    simp [strings.HasPrefix, List.isPrefixOf_iff_prefix]
  simp [strings.TrimPrefix, h]

/-- Trimming on both sides splits a list into a trimmed-off front, the result,
and a trimmed-off back; the result neither starts nor ends with a trimmed
element. -/
theorem trim_decomposition {α : Type} (p : α → Bool) (l : List α) :
    ∃ a b : List α,
      l = a ++ ((l.reverse.dropWhile p).reverse.dropWhile p) ++ b ∧
      (∀ c ∈ a, p c = true) ∧ (∀ c ∈ b, p c = true) ∧
      (∀ c, ((l.reverse.dropWhile p).reverse.dropWhile p).head? = some c → p c = false) ∧
      (∀ c, ((l.reverse.dropWhile p).reverse.dropWhile p).getLast? = some c → p c = false) := by
  refine ⟨(l.reverse.dropWhile p).reverse.takeWhile p, (l.reverse.takeWhile p).reverse,
    ?_, ?_, ?_, ?_, ?_⟩
  · rw [List.takeWhile_append_dropWhile, ← List.reverse_append,
      List.takeWhile_append_dropWhile, List.reverse_reverse]
  · intro c hc
    exact List.mem_takeWhile_imp hc
  · intro c hc
    exact List.mem_takeWhile_imp (List.mem_reverse.mp hc)
  · intro c hc
    have h := List.head?_dropWhile_not p (l.reverse.dropWhile p).reverse
    rw [hc] at h
    simpa using h
  · intro c hc
    have hsuf : ((l.reverse.dropWhile p).reverse.dropWhile p) <:+ (l.reverse.dropWhile p).reverse :=
      List.dropWhile_suffix p
    obtain ⟨u, hu⟩ := hsuf
    have hne : ((l.reverse.dropWhile p).reverse.dropWhile p) ≠ [] := by
      intro h0
      rw [h0] at hc
      simp at hc
    have hlast : (l.reverse.dropWhile p).reverse.getLast? = some c := by
      rw [← hu, List.getLast?_append_of_ne_nil _ hne]
      exact hc
    rw [List.getLast?_reverse] at hlast
    have h := List.head?_dropWhile_not p l.reverse
    rw [hlast] at h
    simpa using h

/-- The decomposition of `strings.Trim v "/"`: `v` is slashes, then the trimmed
string, then slashes, and the trimmed string neither starts nor ends with `/`. -/
theorem strings.Trim_slash_spec (v : String) :
    (∃ a b : String, v = a ++ strings.Trim v "/" ++ b ∧
      (∀ c ∈ a.data, c = '/') ∧ (∀ c ∈ b.data, c = '/')) ∧
    (strings.Trim v "/").data.head? ≠ some '/' ∧
    (strings.Trim v "/").data.getLast? ≠ some '/' := by
  obtain ⟨a, b, hsplit, ha, hb, hhead, hlast⟩ :=
    trim_decomposition (fun c => "/".data.contains c) v.data
  have hT : (strings.Trim v "/").data =
      (v.data.reverse.dropWhile (fun c => "/".data.contains c)).reverse.dropWhile
        (fun c => "/".data.contains c) := rfl
  refine ⟨⟨⟨a⟩, ⟨b⟩, ?_, ?_, ?_⟩, ?_, ?_⟩
  · apply String.ext
    rw [String.data_append, String.data_append, hT]
    exact hsplit
  · intro c hc
    have := ha c hc
    simpa using this
  · intro c hc
    have := hb c hc
    simpa using this
  · intro h
    rw [hT] at h
    have := hhead _ h
    simp at this
  · intro h
    rw [hT] at h
    have := hlast _ h
    simp at this

theorem isNormalized_slash_append (t : String) (hh : t.data.head? ≠ some '/')
    (hl : t.data.getLast? ≠ some '/') : isNormalized ("/" ++ t) = true := by
  have hd : ("/" ++ t).data = '/' :: t.data := by
    rw [String.data_append]; rfl
  unfold isNormalized
  rw [hd]
  by_cases ht : t.data = []
  · have : t = "" := String.ext ht
    subst this
    decide
  · have hlast : ('/' :: t.data).getLast? = t.data.getLast? := by
      cases h : t.data with
      | nil => exact absurd h ht
      | cons x xs => simp [List.getLast?_cons_cons]
    rw [hlast]
    simp [hh, hl]

theorem toDeclarative_inventory (dc rest : String) :
    toDeclarative ("/" ++ dc ++ "/vm" ++ rest) dc = "/" ++ strings.TrimPrefix rest "/" := by
  unfold toDeclarative
  have hp : strings.Join ["/", dc, "/vm"] "" = "/" ++ dc ++ "/vm" := by
    simp [strings.Join_triple]
  simp only [hp, strings.TrimPrefix_append, strings.Join_pair]

theorem slash_append_tail (P : String) (h : P.data.head? = some '/') :
    P = "/" ++ (⟨P.data.tail⟩ : String) := by
  apply String.ext
  rw [String.data_append]
  cases hd : P.data with
  | nil => rw [hd] at h; simp at h
  | cons x xs =>
    rw [hd] at h
    simp at h
    subst h
    rfl

/-- What Read stores for the inventory path of the parent the declared value
`v` denotes: the declared value's canonical form. -/
theorem toDeclarative_of_trimmed (dc t : String) :
    toDeclarative (if t = "" then "/" ++ dc ++ "/vm" else "/" ++ dc ++ "/vm/" ++ t) dc
      = "/" ++ t := by
  by_cases ht : t = ""
  · subst ht
    have h := toDeclarative_inventory dc ""
    simp only [String.append_empty] at h
    simp only [if_true, h]
    decide
  · simp only [if_neg ht]
    have e : "/" ++ dc ++ "/vm/" ++ t = "/" ++ dc ++ "/vm" ++ ("/" ++ t) := by
      have : ("/vm/" : String) = "/vm" ++ "/" := by decide
      rw [this]
      simp only [String.append_assoc]
    rw [e, toDeclarative_inventory, strings.TrimPrefix_append]

/-- C1, as stated, fails: for the datacenter `DC1` and the normalized path
`/eng`, the lookup path Create and Update build is `DC1/vm//eng`, and converting
it back the way Read does gives `/DC1/vm//eng`, not `/eng`. -/
theorem path_round_trip_counterexample :
    isNormalized "/eng" = true ∧
    toFullyQualified "DC1" "/eng" = "DC1/vm//eng" ∧
    toDeclarative (toFullyQualified "DC1" "/eng") "DC1" = "/DC1/vm//eng" ∧
    toDeclarative (toFullyQualified "DC1" "/eng") "DC1" ≠ "/eng" := by
  decide

/-- C1, amended: for every datacenter `dc` and every normalized relative path
`P`, converting the inventory path `/dc/vm` followed by `P` back the way Read
does returns exactly `P`. -/
theorem path_round_trip (dc P : String) (hP : isNormalized P = true) :
    toDeclarative ("/" ++ dc ++ "/vm" ++ P) dc = P := by
  have hhead : P.data.head? = some '/' := by
    unfold isNormalized at hP
    simp only [Bool.and_eq_true, beq_iff_eq] at hP
    exact hP.1.1
  rw [toDeclarative_inventory]
  have e := slash_append_tail P hhead
  conv_lhs => rw [e]
  rw [strings.TrimPrefix_append]
  exact e.symm

theorem path_round_trip_witness :
    isNormalized "/eng/ci" = true ∧
    toDeclarative ("/" ++ "DC1" ++ "/vm" ++ "/eng/ci") "DC1" = "/eng/ci" :=
  ⟨by decide, path_round_trip "DC1" "/eng/ci" (by decide)⟩

/-- C9: the value the `StateFunc` of `parent` stores for `v` is `/` followed by
`v` without its leading and trailing slashes; it is a normalized path (exactly
one leading `/`, no trailing `/` unless it is the root), and it is the root `/`
exactly when `v` is empty or all slashes. -/
theorem parentStateFunc_canonical (v : String) :
    parentStateFunc v = "/" ++ strings.Trim v "/" ∧
    (∃ a b : String, v = a ++ strings.Trim v "/" ++ b ∧
      (∀ c ∈ a.data, c = '/') ∧ (∀ c ∈ b.data, c = '/')) ∧
    (strings.Trim v "/").data.head? ≠ some '/' ∧
    (strings.Trim v "/").data.getLast? ≠ some '/' ∧
    isNormalized (parentStateFunc v) = true ∧
    (parentStateFunc v = "/" ↔ ∀ c ∈ v.data, c = '/') := by
  obtain ⟨⟨a, b, hv, ha, hb⟩, hh, hl⟩ := strings.Trim_slash_spec v
  have hres : parentStateFunc v = "/" ++ strings.Trim v "/" := by
    simp [parentStateFunc, strings.Join_pair]
  refine ⟨hres, ⟨a, b, hv, ha, hb⟩, hh, hl, ?_, ?_⟩
  · rw [hres]
    exact isNormalized_slash_append _ hh hl
  · have hdata : v.data = a.data ++ (strings.Trim v "/").data ++ b.data := by
      conv_lhs => rw [hv]
      simp [String.data_append]
    constructor
    · intro h
      rw [hres] at h
      have ht : (strings.Trim v "/").data = [] := by
        have := congrArg String.data h
        rw [String.data_append] at this
        simpa using this
      intro c hc
      rw [hdata, ht] at hc
      simp only [List.append_nil, List.mem_append] at hc
      rcases hc with hc | hc
      · exact ha c hc
      · exact hb c hc
    · intro h
      have ht : (strings.Trim v "/").data = [] := by
        cases hd : (strings.Trim v "/").data with
        | nil => rfl
        | cons x xs =>
          exfalso
          apply hh
          rw [hd]
          have hx : x ∈ v.data := by
            rw [hdata, hd]; simp
          simp [h x hx]
      have : strings.Trim v "/" = "" := String.ext ht
      rw [hres, this]
      rfl

/-! ## The handlers -/

/-- C8: when the persisted identity does not resolve, Read, Update and Delete
each return `nil`, clear the identity token, and issue no remote call but the
failed resolution, whatever changed. -/
theorem absent_identity_is_not_an_error {σ : Type} (client : Client σ)
    (d : schema.ResourceData) (s s1 : σ) (e : String)
    (h : client.ObjectReference s ⟨"Folder", d.Id⟩ = (.error e, s1)) :
    ((resourceVmFolderRead client d s).err = .nil ∧
      (resourceVmFolderRead client d s).d.Id = "" ∧
      (resourceVmFolderRead client d s).w.calls = [Call.ObjectReference ⟨"Folder", d.Id⟩]) ∧
    ((resourceVmFolderUpdate client d s).err = .nil ∧
      (resourceVmFolderUpdate client d s).d.Id = "" ∧
      (resourceVmFolderUpdate client d s).w.calls = [Call.ObjectReference ⟨"Folder", d.Id⟩]) ∧
    ((resourceVmFolderDelete client d s).err = .nil ∧
      (resourceVmFolderDelete client d s).d.Id = "" ∧
      (resourceVmFolderDelete client d s).w.calls = [Call.ObjectReference ⟨"Folder", d.Id⟩]) := by
  simp [resourceVmFolderRead, resourceVmFolderUpdate, resourceVmFolderDelete,
    finder.ObjectReference, Session.start, h, schema.ResourceData.SetId]

theorem absent_identity_is_not_an_error_witness :
    ((resourceVmFolderRead goneClient changedData []).err = .nil ∧
      (resourceVmFolderRead goneClient changedData []).d.Id = "" ∧
      (resourceVmFolderRead goneClient changedData []).w.calls =
        [Call.ObjectReference ⟨"Folder", "group-v2"⟩]) ∧
    ((resourceVmFolderUpdate goneClient changedData []).err = .nil ∧
      (resourceVmFolderUpdate goneClient changedData []).d.Id = "" ∧
      (resourceVmFolderUpdate goneClient changedData []).w.calls =
        [Call.ObjectReference ⟨"Folder", "group-v2"⟩]) ∧
    ((resourceVmFolderDelete goneClient changedData []).err = .nil ∧
      (resourceVmFolderDelete goneClient changedData []).d.Id = "" ∧
      (resourceVmFolderDelete goneClient changedData []).w.calls =
        [Call.ObjectReference ⟨"Folder", "group-v2"⟩]) :=
  absent_identity_is_not_an_error goneClient changedData [] [] "not found" rfl

/-- C4: when the identity resolves to a folder whose list of children is not
empty, Delete returns the error `Folder is not empty`, its only calls are the
resolution and the listing (no destroy request, no await), and the resource
data, the identity token included, is left as it was. -/
theorem delete_guard {σ : Type} (client : Client σ) (d : schema.ResourceData)
    (s s1 s2 : σ) (folder : object.Folder) (children : List object.Reference)
    (cerr : Option String)
    (hres : client.ObjectReference s ⟨"Folder", d.Id⟩ = (.ok (.Folder folder), s1))
    (hch : client.Children s1 folder = ((children, cerr), s2))
    (hne : children ≠ []) :
    (resourceVmFolderDelete client d s).err = .error "Folder is not empty" ∧
    (resourceVmFolderDelete client d s).w.calls =
      [Call.ObjectReference ⟨"Folder", d.Id⟩, Call.Children folder.Reference] ∧
    (∀ c ∈ (resourceVmFolderDelete client d s).w.calls,
      (∀ r, c ≠ Call.Destroy r) ∧ (∀ t, c ≠ Call.WaitForResult t)) ∧
    (resourceVmFolderDelete client d s).d = d ∧
    (resourceVmFolderDelete client d s).w.remote = s2 := by
  have hlen : children.length > 0 := List.length_pos.mpr hne
  simp [resourceVmFolderDelete, finder.ObjectReference, object.Folder.Children,
    Session.start, hres, hch, hlen]

theorem delete_guard_witness :
    (resourceVmFolderDelete nonEmptyClient sampleData []).err = .error "Folder is not empty" ∧
    (resourceVmFolderDelete nonEmptyClient sampleData []).w.calls =
      [Call.ObjectReference ⟨"Folder", "group-v2"⟩, Call.Children ⟨"Folder", "group-v2"⟩] ∧
    (∀ c ∈ (resourceVmFolderDelete nonEmptyClient sampleData []).w.calls,
      (∀ r, c ≠ Call.Destroy r) ∧ (∀ t, c ≠ Call.WaitForResult t)) ∧
    (resourceVmFolderDelete nonEmptyClient sampleData []).d = sampleData ∧
    (resourceVmFolderDelete nonEmptyClient sampleData []).w.remote = [] :=
  delete_guard nonEmptyClient sampleData [] [] []
    ⟨⟨"Folder", "group-v2"⟩, "/DC1/vm/eng/build"⟩
    [.Other ⟨"VirtualMachine", "vm-7"⟩] none rfl rfl (by decide)

theorem schema.ResourceData.Get_Partial (d : schema.ResourceData) (b : Bool) (key : String) :
    (d.Partial b).Get key = d.Get key := rfl

theorem schema.ResourceData.HasChange_Partial (d : schema.ResourceData) (b : Bool)
    (key : String) : (d.Partial b).HasChange key = d.HasChange key := rfl

theorem schema.ResourceData.Get_SetPartial (d : schema.ResourceData) (k key : String) :
    (d.SetPartial k).Get key = d.Get key := rfl

theorem schema.ResourceData.HasChange_SetPartial (d : schema.ResourceData) (k key : String) :
    (d.SetPartial k).HasChange key = d.HasChange key := rfl

/-- C6: on an identity that resolves to a folder, with `name` changed (and
`parent` changed as well), when the rename request is rejected or the awaited
rename task fails, Update returns the error `Cannot rename folder: ...` carrying
the remote error, and issues neither a parent-folder lookup nor a move-into
request; `name` is not marked as applied. -/
theorem update_aborts_on_rename_failure {σ : Type} (client : Client σ)
    (d : schema.ResourceData) (s s1 : σ) (folder : object.Folder) (e : String)
    (hres : client.ObjectReference s ⟨"Folder", d.Id⟩ = (.ok (.Folder folder), s1))
    (hname : d.HasChange "name" = true)
    (hparent : d.HasChange "parent" = true)
    (hfail : (∃ s2, client.Rename s1 folder (d.Get "name") = (.error e, s2)) ∨
      (∃ task s2 s3, client.Rename s1 folder (d.Get "name") = (.ok task, s2) ∧
        client.WaitForResult s2 task = (.error e, s3))) :
    (resourceVmFolderUpdate client d s).err = .error ("Cannot rename folder: " ++ e) ∧
    (∀ c ∈ (resourceVmFolderUpdate client d s).w.calls,
      (∀ p, c ≠ Call.FinderFolder p) ∧ (∀ p l, c ≠ Call.MoveInto p l)) ∧
    (resourceVmFolderUpdate client d s).d.partialMap = d.partialMap := by
  have _ := hparent
  rcases hfail with ⟨s2, h2⟩ | ⟨task, s2, s3, h2, h3⟩
  · simp [resourceVmFolderUpdate, finder.ObjectReference, object.Folder.Rename,
      Session.start, hres, hname, h2, schema.ResourceData.Get_Partial,
      schema.ResourceData.HasChange_Partial]
    rfl
  · simp [resourceVmFolderUpdate, finder.ObjectReference, object.Folder.Rename,
      object.Task.WaitForResult, Session.start, hres, hname, h2, h3,
      schema.ResourceData.Get_Partial, schema.ResourceData.HasChange_Partial]
    rfl

theorem update_aborts_on_rename_failure_witness :
    ((resourceVmFolderUpdate renameRejectedClient changedData []).err =
        .error ("Cannot rename folder: " ++ "permission denied") ∧
      (∀ c ∈ (resourceVmFolderUpdate renameRejectedClient changedData []).w.calls,
        (∀ p, c ≠ Call.FinderFolder p) ∧ (∀ p l, c ≠ Call.MoveInto p l)) ∧
      (resourceVmFolderUpdate renameRejectedClient changedData []).d.partialMap =
        changedData.partialMap) ∧
    ((resourceVmFolderUpdate renameTaskFailsClient changedData []).err =
        .error ("Cannot rename folder: " ++ "duplicate name") ∧
      (∀ c ∈ (resourceVmFolderUpdate renameTaskFailsClient changedData []).w.calls,
        (∀ p, c ≠ Call.FinderFolder p) ∧ (∀ p l, c ≠ Call.MoveInto p l)) ∧
      (resourceVmFolderUpdate renameTaskFailsClient changedData []).d.partialMap =
        changedData.partialMap) :=
  ⟨update_aborts_on_rename_failure renameRejectedClient changedData [] []
      ⟨⟨"Folder", "group-v2"⟩, "/DC1/vm/eng/build"⟩ "permission denied" rfl (by decide)
      (by decide) (Or.inl ⟨[], rfl⟩),
    update_aborts_on_rename_failure renameTaskFailsClient changedData [] []
      ⟨⟨"Folder", "group-v2"⟩, "/DC1/vm/eng/build"⟩ "duplicate name" rfl (by decide)
      (by decide) (Or.inr ⟨⟨⟨"Task", "task-1"⟩⟩, [], [], rfl, rfl⟩)⟩

/-- C7: when neither `name` nor `parent` changed, Update issues no mutating
remote call (its only call is the identity resolution) and never returns an
error: it returns `nil`, the one other ending being the runtime panic of the
type assertion when the remote resolves the identity to an object that is not a
folder. -/
theorem update_noop {σ : Type} (client : Client σ) (d : schema.ResourceData) (s : σ)
    (hn : d.HasChange "name" = false) (hp : d.HasChange "parent" = false) :
    (∀ c ∈ (resourceVmFolderUpdate client d s).w.calls, c.isMutating = false) ∧
    (resourceVmFolderUpdate client d s).w.calls = [Call.ObjectReference ⟨"Folder", d.Id⟩] ∧
    (∀ e, (resourceVmFolderUpdate client d s).err ≠ .error e) ∧
    ((∀ ref s1, client.ObjectReference s ⟨"Folder", d.Id⟩ ≠ (.ok (.Other ref), s1)) →
      (resourceVmFolderUpdate client d s).err = .nil) := by
  rcases h : client.ObjectReference s ⟨"Folder", d.Id⟩ with ⟨r, s1⟩
  rcases r with e | obj
  · simp [resourceVmFolderUpdate, finder.ObjectReference, Session.start, h, Call.isMutating]
  · rcases obj with folder | ref
    · simp [resourceVmFolderUpdate, resourceVmFolderUpdate.parentStep,
        finder.ObjectReference, Session.start, h, hn, hp, Call.isMutating,
        schema.ResourceData.HasChange_Partial]
    · simp [resourceVmFolderUpdate, finder.ObjectReference, Session.start, h, Call.isMutating]

theorem update_noop_witness :
    (∀ c ∈ (resourceVmFolderUpdate okClient sampleData []).w.calls, c.isMutating = false) ∧
    (resourceVmFolderUpdate okClient sampleData []).w.calls =
      [Call.ObjectReference ⟨"Folder", sampleData.Id⟩] ∧
    (∀ e, (resourceVmFolderUpdate okClient sampleData []).err ≠ .error e) ∧
    ((∀ ref s1, okClient.ObjectReference [] ⟨"Folder", sampleData.Id⟩ ≠ (.ok (.Other ref), s1)) →
      (resourceVmFolderUpdate okClient sampleData []).err = .nil) :=
  update_noop okClient sampleData [] (by decide) (by decide)

/-- C10: Create is fail-fast. When the parent lookup fails it returns
`Cannot find parent folder: ...` and has issued no create-child-folder request;
when the create request is rejected it returns `Cannot create folder: ...`; in
both cases the resource data, the identity token included, is untouched. When it
returns `nil`, its calls were the lookup and exactly one create-child-folder
request, and the identity token is the created folder's reference value. -/
theorem create_fail_fast {σ : Type} (client : Client σ) (d : schema.ResourceData) (s : σ) :
    (∀ e s1,
      client.Folder s (toFullyQualified (d.Get "datacenter") (d.Get "parent")) = (.error e, s1) →
      (resourceVmFolderCreate client d s).err = .error ("Cannot find parent folder: " ++ e) ∧
      (∀ c ∈ (resourceVmFolderCreate client d s).w.calls, ∀ p n, c ≠ Call.CreateFolder p n) ∧
      (resourceVmFolderCreate client d s).d = d) ∧
    (∀ parent s1 e s2,
      client.Folder s (toFullyQualified (d.Get "datacenter") (d.Get "parent")) =
        (.ok parent, s1) →
      client.CreateFolder s1 parent (d.Get "name") = (.error e, s2) →
      (resourceVmFolderCreate client d s).err = .error ("Cannot create folder: " ++ e) ∧
      (resourceVmFolderCreate client d s).d = d) ∧
    ((resourceVmFolderCreate client d s).err = .nil →
      ∃ parent s1 folder s2,
        client.Folder s (toFullyQualified (d.Get "datacenter") (d.Get "parent")) =
          (.ok parent, s1) ∧
        client.CreateFolder s1 parent (d.Get "name") = (.ok folder, s2) ∧
        (resourceVmFolderCreate client d s).w.calls =
          [Call.FinderFolder (toFullyQualified (d.Get "datacenter") (d.Get "parent")),
            Call.CreateFolder parent.Reference (d.Get "name")] ∧
        ((resourceVmFolderCreate client d s).w.calls.filter Call.isMutating).length = 1 ∧
        (resourceVmFolderCreate client d s).d.Id = folder.Reference.Value) := by
  refine ⟨?_, ?_, ?_⟩
  · intro e s1 h
    simp [resourceVmFolderCreate, finder.Folder, Session.start, h]
  · intro parent s1 e s2 h1 h2
    simp [resourceVmFolderCreate, finder.Folder, object.Folder.CreateFolder,
      Session.start, h1, h2]
  · rcases h1 : client.Folder s (toFullyQualified (d.Get "datacenter") (d.Get "parent"))
      with ⟨r, s1⟩
    rcases r with e | parent
    · simp [resourceVmFolderCreate, finder.Folder, Session.start, h1]
    · rcases h2 : client.CreateFolder s1 parent (d.Get "name") with ⟨r2, s2⟩
      rcases r2 with e | folder
      · simp [resourceVmFolderCreate, finder.Folder, object.Folder.CreateFolder,
          Session.start, h1, h2]
      · intro _
        refine ⟨parent, s1, folder, s2, rfl, h2, ?_, ?_, ?_⟩ <;>
          simp [resourceVmFolderCreate, finder.Folder, object.Folder.CreateFolder,
            Session.start, h1, h2, Call.isMutating, schema.ResourceData.SetId]

theorem create_fail_fast_witness :
    ((resourceVmFolderCreate noParentClient newData []).err =
        .error ("Cannot find parent folder: " ++ "folder not found") ∧
      (∀ c ∈ (resourceVmFolderCreate noParentClient newData []).w.calls,
        ∀ p n, c ≠ Call.CreateFolder p n) ∧
      (resourceVmFolderCreate noParentClient newData []).d = newData) ∧
    ((resourceVmFolderCreate createRejectedClient newData []).err =
        .error ("Cannot create folder: " ++ "duplicate name") ∧
      (resourceVmFolderCreate createRejectedClient newData []).d = newData) ∧
    (resourceVmFolderCreate okClient newData []).err = .nil ∧
    (resourceVmFolderCreate okClient newData []).d.Id = "group-v2" :=
  ⟨(create_fail_fast noParentClient newData []).1 "folder not found" [] rfl,
    (create_fail_fast createRejectedClient newData []).2.1
      ⟨⟨"Folder", "group-v1"⟩, "/DC1/vm//eng"⟩ [] "duplicate name" [] rfl rfl,
    by decide, by decide⟩

theorem toFullyQualified_eq (dc P : String) :
    toFullyQualified dc P = dc ++ "/vm/" ++ P := by
  have h : ("/vm/" : String) = "/" ++ "vm" ++ "/" := by decide
  rw [toFullyQualified, strings.Join_triple, h]
  simp only [String.append_assoc]

/-- Every parent-folder lookup the parent step of Update adds to the log is
for the path built from the datacenter and the parent. -/
theorem parentStep_lookup {σ : Type} (client : Client σ) (folder : object.Folder)
    (d : schema.ResourceData) (w : Session σ) (path : String)
    (h : Call.FinderFolder path ∈ (resourceVmFolderUpdate.parentStep client folder d w).w.calls) :
    Call.FinderFolder path ∈ w.calls ∨
      path = toFullyQualified (d.Get "datacenter") (d.Get "parent") := by
  unfold resourceVmFolderUpdate.parentStep at h
  by_cases hp : d.HasChange "parent" = true
  · simp only [hp, if_true] at h
    rcases h1 : client.Folder w.remote (toFullyQualified (d.Get "datacenter") (d.Get "parent"))
      with ⟨r1, s1⟩
    rcases r1 with e | parent_folder
    · simp [finder.Folder, h1] at h
      exact h
    · rcases h2 : client.MoveInto s1 parent_folder [folder.Reference] with ⟨r2, s2⟩
      rcases r2 with e | task
      · simp [finder.Folder, object.Folder.MoveInto, h1, h2] at h
        exact h
      · rcases h3 : client.WaitForResult s2 task with ⟨r3, s3⟩
        rcases r3 with e | u
        · simp [finder.Folder, object.Folder.MoveInto, object.Task.WaitForResult,
            h1, h2, h3] at h
          exact h
        · simp [finder.Folder, object.Folder.MoveInto, object.Task.WaitForResult,
            h1, h2, h3] at h
          exact h
  · simp only [hp] at h
    exact Or.inl h

/-- C2, as stated, fails: for the datacenter `DC1` and the normalized parent
`/eng` the path Create hands to the parent-folder lookup is `DC1/vm//eng`, with
the separator of `strings.Join` in front of the parent's own leading slash, and
not `DC1/vm/eng`. -/
theorem lookup_path_counterexample :
    isNormalized "/eng" = true ∧
    toFullyQualified "DC1" "/eng" ≠ "DC1" ++ "/vm" ++ "/eng" ∧
    (resourceVmFolderCreate okClient newData []).w.calls.head? =
      some (Call.FinderFolder "DC1/vm//eng") ∧
    (resourceVmFolderCreate okClient newData []).w.calls.head? ≠
      some (Call.FinderFolder "DC1/vm/eng") := by
  decide

/-- C2, amended: for every datacenter `dc` and parent `P` the path Create and
Update hand to the parent-folder lookup is `dc`, then `/vm/`, then `P`: the
first call of Create is the lookup of that path, and every lookup Update issues
is a lookup of that path. For `DC1` and `/eng` it is `DC1/vm//eng`, for `DC1` and
`/eng/ci` it is `DC1/vm//eng/ci`. -/
theorem lookup_path_construction {σ : Type} (client : Client σ)
    (d : schema.ResourceData) (s : σ) :
    (∀ dc P : String, toFullyQualified dc P = dc ++ "/vm/" ++ P) ∧
    (∃ rest, (resourceVmFolderCreate client d s).w.calls =
      Call.FinderFolder (d.Get "datacenter" ++ "/vm/" ++ d.Get "parent") :: rest) ∧
    (∀ path, Call.FinderFolder path ∈ (resourceVmFolderUpdate client d s).w.calls →
      path = d.Get "datacenter" ++ "/vm/" ++ d.Get "parent") ∧
    toFullyQualified "DC1" "/eng" = "DC1/vm//eng" ∧
    toFullyQualified "DC1" "/eng/ci" = "DC1/vm//eng/ci" := by
  refine ⟨toFullyQualified_eq, ?_, ?_, by decide, by decide⟩
  · rw [← toFullyQualified_eq]
    rcases h1 : client.Folder s (toFullyQualified (d.Get "datacenter") (d.Get "parent"))
      with ⟨r, s1⟩
    rcases r with e | parent
    · simp [resourceVmFolderCreate, finder.Folder, Session.start, h1]
    · rcases h2 : client.CreateFolder s1 parent (d.Get "name") with ⟨r2, s2⟩
      rcases r2 with e | folder <;>
        simp [resourceVmFolderCreate, finder.Folder, object.Folder.CreateFolder,
          Session.start, h1, h2]
  · intro path hmem
    rw [← toFullyQualified_eq]
    unfold resourceVmFolderUpdate at hmem
    rcases h0 : client.ObjectReference s ⟨"Folder", d.Id⟩ with ⟨r, s1⟩
    rcases r with e | obj
    · simp [finder.ObjectReference, Session.start, h0] at hmem
    · rcases obj with folder | ref
      · by_cases hn : d.HasChange "name" = true
        · rcases h1 : client.Rename s1 folder (d.Get "name") with ⟨r1, s2⟩
          rcases r1 with e | task
          · simp [finder.ObjectReference, object.Folder.Rename, Session.start, h0, h1, hn,
              schema.ResourceData.Get_Partial, schema.ResourceData.HasChange_Partial] at hmem
          · rcases h2 : client.WaitForResult s2 task with ⟨r2, s3⟩
            rcases r2 with e | u
            · simp [finder.ObjectReference, object.Folder.Rename, object.Task.WaitForResult,
                Session.start, h0, h1, h2, hn, schema.ResourceData.Get_Partial,
                schema.ResourceData.HasChange_Partial] at hmem
            · simp only [finder.ObjectReference, object.Folder.Rename,
                object.Task.WaitForResult, Session.start, h0, h1, h2, hn,
                schema.ResourceData.Get_Partial, schema.ResourceData.HasChange_Partial,
                if_true] at hmem
              rcases parentStep_lookup _ _ _ _ _ hmem with h | h
              · simp at h
              · simpa [schema.ResourceData.Get_Partial, schema.ResourceData.Get_SetPartial]
                  using h
        · simp only [finder.ObjectReference, Session.start, h0, hn,
            schema.ResourceData.HasChange_Partial] at hmem
          rcases parentStep_lookup _ _ _ _ _ hmem with h | h
          · simp at h
          · simpa [schema.ResourceData.Get_Partial] using h
      · simp [finder.ObjectReference, Session.start, h0] at hmem

theorem lookup_path_construction_witness :
    Call.FinderFolder "DC1/vm//eng/ci" ∈ (resourceVmFolderUpdate okClient movedData []).w.calls ∧
    "DC1/vm//eng/ci" = movedData.Get "datacenter" ++ "/vm/" ++ movedData.Get "parent" :=
  ⟨by decide,
    (lookup_path_construction okClient movedData []).2.2.1 "DC1/vm//eng/ci" (by decide)⟩

theorem schema.ResourceData.Get_datacenter_Set_name (d : schema.ResourceData) (x : String) :
    (d.Set "name" x).Get "datacenter" = d.Get "datacenter" := rfl

theorem schema.ResourceData.Get_parent_Set_parent (d : schema.ResourceData) (x : String) :
    (d.Set "parent" x).Get "parent" = x := rfl

/-- C3: for a declared parent `v` with `t` its trimmed form, when the folder
resolves, its properties are fetched, and its parent resolves to a folder whose
inventory path is `/dc/vm` (for empty `t`) or `/dc/vm/t`, Read returns `nil` and
the parent value it stores is the value the `StateFunc` stores for `v`, which is
`/` followed by `t`. -/
theorem read_parent_agrees_with_declared {σ : Type} (client : Client σ)
    (d : schema.ResourceData) (s s1 s2 s3 : σ) (folder pf : object.Folder)
    (o : mo.ManagedEntity) (p : types.ManagedObjectReference) (v : String)
    (hres : client.ObjectReference s ⟨"Folder", d.Id⟩ = (.ok (.Folder folder), s1))
    (hprops : client.Properties s1 folder folder.Reference ["name", "parent"] = (.ok o, s2))
    (hparent : o.Parent = some p)
    (hpres : client.ObjectReference s2 p = (.ok (.Folder pf), s3))
    (hpath : pf.InventoryPath =
      if strings.Trim v "/" = "" then "/" ++ d.Get "datacenter" ++ "/vm"
      else "/" ++ d.Get "datacenter" ++ "/vm/" ++ strings.Trim v "/") :
    (resourceVmFolderRead client d s).err = .nil ∧
    (resourceVmFolderRead client d s).d.Get "parent" = parentStateFunc v ∧
    parentStateFunc v = "/" ++ strings.Trim v "/" := by
  have hsf : parentStateFunc v = "/" ++ strings.Trim v "/" := by
    simp [parentStateFunc, strings.Join_pair]
  have hdecl : toDeclarative pf.InventoryPath (d.Get "datacenter") = parentStateFunc v := by
    rw [hpath, toDeclarative_of_trimmed, hsf]
  refine ⟨?_, ?_, hsf⟩
  · simp [resourceVmFolderRead, finder.ObjectReference, object.Folder.Properties,
      Session.start, hres, hprops, hparent, hpres]
  · simp [resourceVmFolderRead, finder.ObjectReference, object.Folder.Properties,
      Session.start, hres, hprops, hparent, hpres,
      schema.ResourceData.Get_datacenter_Set_name, schema.ResourceData.Get_parent_Set_parent,
      hdecl]

theorem read_parent_agrees_with_declared_witness :
    (resourceVmFolderRead okClient sampleData []).err = .nil ∧
    (resourceVmFolderRead okClient sampleData []).d.Get "parent" = parentStateFunc "//eng/" ∧
    parentStateFunc "//eng/" = "/" ++ strings.Trim "//eng/" "/" :=
  read_parent_agrees_with_declared okClient sampleData [] [] [] []
    ⟨⟨"Folder", "group-v2"⟩, "/DC1/vm/eng/build"⟩ ⟨⟨"Folder", "group-v1"⟩, "/DC1/vm/eng"⟩
    ⟨"build", some ⟨"Folder", "group-v1"⟩⟩ ⟨"Folder", "group-v1"⟩ "//eng/"
    rfl rfl rfl rfl (by decide)

/-- Delete discards the error of the children listing: when the listing
returns an error together with an empty list, and the destroy request and its
task succeed, Delete destroys the folder and returns `nil`. -/
theorem delete_discards_children_error {σ : Type} (client : Client σ)
    (d : schema.ResourceData) (s s1 s2 s3 s4 : σ) (folder : object.Folder)
    (e : String) (task : object.Task)
    (hres : client.ObjectReference s ⟨"Folder", d.Id⟩ = (.ok (.Folder folder), s1))
    (hch : client.Children s1 folder = (([], some e), s2))
    (hdes : client.Destroy s2 folder = (.ok task, s3))
    (hwait : client.WaitForResult s3 task = (.ok (), s4)) :
    (resourceVmFolderDelete client d s).err = .nil ∧
    Call.Destroy folder.Reference ∈ (resourceVmFolderDelete client d s).w.calls := by
  simp [resourceVmFolderDelete, finder.ObjectReference, object.Folder.Children,
    object.Folder.Destroy, object.Task.WaitForResult, Session.start, hres, hch, hdes, hwait]

/-- The sibling calls of Delete are checked: when the destroy request is
rejected, Delete returns `Cannot delete folder: ...` with the remote error. -/
theorem delete_surfaces_destroy_error {σ : Type} (client : Client σ)
    (d : schema.ResourceData) (s s1 s2 s3 : σ) (folder : object.Folder)
    (cerr : Option String) (e : String)
    (hres : client.ObjectReference s ⟨"Folder", d.Id⟩ = (.ok (.Folder folder), s1))
    (hch : client.Children s1 folder = (([], cerr), s2))
    (hdes : client.Destroy s2 folder = (.error e, s3)) :
    (resourceVmFolderDelete client d s).err = .error ("Cannot delete folder: " ++ e) ∧
    (resourceVmFolderDelete client d s).d = d := by
  simp [resourceVmFolderDelete, finder.ObjectReference, object.Folder.Children,
    object.Folder.Destroy, Session.start, hres, hch, hdes]

/-- C5, at the failing input: the children listing of the folder `group-v2`
fails (`connection reset`), and Delete returns `nil`, has issued the destroy
request and awaited it, and the folder is destroyed in the inventory. -/
theorem delete_ignores_children_error :
    childrenFailClient.Children [] ⟨⟨"Folder", "group-v2"⟩, "/DC1/vm/eng/build"⟩ =
      (([], some "connection reset"), []) ∧
    (resourceVmFolderDelete childrenFailClient sampleData []).err = .nil ∧
    (resourceVmFolderDelete childrenFailClient sampleData []).w.calls =
      [Call.ObjectReference ⟨"Folder", "group-v2"⟩, Call.Children ⟨"Folder", "group-v2"⟩,
        Call.Destroy ⟨"Folder", "group-v2"⟩, Call.WaitForResult ⟨"Task", "task-3"⟩] ∧
    (resourceVmFolderDelete childrenFailClient sampleData []).w.remote = ["group-v2"] ∧
    (resourceVmFolderDelete childrenFailClient sampleData []).d.Id = "" := by
  decide
